import Mathlib

/-!
Verification development for the DocuChat document-chat application.

The embedding models, from the TypeScript sources:
  * `services/geminiService.ts`  — session management (`initializeChat`, the
    ensure-session guard inside `sendMessageStream`), data-URL stripping
    (`data.split(',')[1] || data`), streaming accumulation, and
    `generateSummary`;
  * `components/FileUpload.tsx`  — batch validation in `processFiles`;
  * the chat screen component     — `handleSendMessage` and
    `handleGenerateSummary` turn handling.

Strings handed to the remote API are modelled as `List Char` (JS strings are
sequences of code units; only per-character structure matters here), while UI
texts stay `String`.  Remote behaviour (network responses, stream chunks) is
passed in explicitly as data, so every definition is executable.
-/

namespace DocuChat

/-! ### JavaScript `String.prototype.split(',')` on character lists

`splitComma l` mirrors `l.split(',')` for a one-character separator:
`"".split(',') = [""]`, `"a,b".split(',') = ["a","b"]`, `"a,".split(',') =
["a", ""]`. -/

def splitComma : List Char → List (List Char)
  | [] => [[]]
  | c :: cs =>
    if c = ',' then [] :: splitComma cs
    else
      match splitComma cs with
      | [] => [[c]]
      | g :: gs => (c :: g) :: gs

/-- Model of `data.split(',')[1] || data` (geminiService.ts lines 33 and 86):
JavaScript indexing past the end gives `undefined`, and both `undefined` and
the empty string are falsy, so the fallback `data` is used in those cases. -/
def stripDataUrl (data : List Char) : List Char :=
  match (splitComma data).get? 1 with
  | some seg => if seg = [] then data else seg
  | none => data

/-- Characters of the base64 alphabet (with `=` padding). -/
def base64Char (c : Char) : Bool :=
  ('A' ≤ c && c ≤ 'Z') || ('a' ≤ c && c ≤ 'z') || ('0' ≤ c && c ≤ '9') ||
    c = '+' || c = '/' || c = '='

/-- `leadsWith p s` holds when `s` starts with the segment `p`. -/
def leadsWith : List Char → List Char → Bool
  | [], _ => true
  | _ :: _, [] => false
  | c :: p, d :: s => (c == d) && leadsWith p s

/-- `hasSeg p s` holds when `p` occurs contiguously inside `s`. -/
def hasSeg (p : List Char) : List Char → Bool
  | [] => leadsWith p []
  | d :: s => leadsWith p (d :: s) || hasSeg p s

/-! ### Data model (`types.ts`) -/

inductive Role where
  | user
  | model
deriving DecidableEq

structure Message where
  id : String
  role : Role
  text : String
  timestamp : Nat
  isError : Bool
deriving DecidableEq

structure UploadedFile where
  name : String
  type : String
  data : List Char
  size : Nat
deriving DecidableEq

/-- A raw browser `File` before encoding: `processFiles` inspects only its
name, declared MIME type and size; the byte content is reached only through
the `FileReader` (modelled as an explicit `readDataUrl` function). -/
structure RawFile where
  name : String
  type : String
  size : Nat
deriving DecidableEq

/-! ### geminiService.ts -/

/-- One `inlineData` part of a request. -/
structure InlinePart where
  data : List Char
  mimeType : String
deriving DecidableEq

/-- The module-level `let chatSession: Chat | null = null` plus a counter
used to give each remotely-created session a distinct handle. -/
structure ServiceState where
  chatSession : Option Nat
  nextSessionId : Nat
deriving DecidableEq

/-- `initializeChat` (lines 22-29): unconditionally creates a fresh remote
session and stores it in the module-level handle. -/
def initializeChat (st : ServiceState) : ServiceState :=
  { chatSession := some st.nextSessionId, nextSessionId := st.nextSessionId + 1 }

/-- The ensure-session path at the top of `sendMessageStream` (lines 68-70):
`if (!chatSession) { initializeChat(); }`. -/
def ensureSession (st : ServiceState) : ServiceState :=
  if st.chatSession = none then initializeChat st else st

/-- The `files.map` in both `generateSummary` and `sendMessageStream`:
each file becomes an `inlineData` part whose payload is the file's data with
any data-URL prefix stripped at the first comma. -/
def filePartsOf (files : List UploadedFile) : List InlinePart :=
  files.map fun f => { data := stripDataUrl f.data, mimeType := f.type }

/-- One event of the remote response stream: a text chunk, or the iterator
throwing. -/
inductive StreamEvent where
  | chunk (s : String)
  | err
deriving DecidableEq

/-- The `for await (const chunk of result)` loop of `sendMessageStream`
(lines 116-124): each non-empty chunk is appended to `fullResponse` and the
`onChunk` callback is invoked with the running total; an error event throws,
discarding the accumulated text.  Returns the list of values passed to the
callback, in order, together with the outcome. -/
def streamLoop (acc : String) : List StreamEvent → List String × Except Unit String
  | [] => ([], Except.ok acc)
  | StreamEvent.chunk c :: rest =>
    if c = "" then streamLoop acc rest
    else
      let acc2 := acc ++ c
      let (tr, r) := streamLoop acc2 rest
      (acc2 :: tr, r)
  | StreamEvent.err :: _ => ([], Except.error ())

/-- The single request issued by `sendMessageStream`: the file parts (empty
for a text-only message) and the text part. -/
structure SentMessage where
  fileParts : List InlinePart
  textPart : String
deriving DecidableEq

/-- The request built by `sendMessageStream` (lines 82-114): when files are
supplied and non-empty (`if (files && files.length > 0)`), the message
carries the encoded file parts before the text part; otherwise it is
text-only. -/
def requestFor (files : Option (List UploadedFile)) (text : String) :
    SentMessage :=
  match files with
  | some fs => if fs.length > 0 then ⟨filePartsOf fs, text⟩ else ⟨[], text⟩
  | none => ⟨[], text⟩

/-- `sendMessageStream` (lines 63-132).  The stream events are supplied as
data.  Returns the service state after the call, the message that was sent
(`none` only on the unreachable failed-initialization throw), the sequence of
values passed to `onChunk`, and the result (`Except.error` models a thrown
exception; the partial text is discarded). -/
def sendMessageStreamRun (st : ServiceState) (text : String)
    (files : Option (List UploadedFile)) (events : List StreamEvent) :
    ServiceState × Option SentMessage × List String × Except Unit String :=
  let st' := ensureSession st
  match st'.chatSession with
  | none => (st', none, [], Except.error ())
  | some _ =>
    (st', some (requestFor files text),
      (streamLoop "" events).1, (streamLoop "" events).2)

/-- Fallback summary returned when the remote response text is empty or
absent (`response.text || ...`, line 56). -/
def summaryFallback : String :=
  "I was unable to generate a summary for these documents."

/-- `response.text || fallback` of `generateSummary` (line 56): `response.text`
may be `undefined` (modelled as `none`) or the empty string, both falsy. -/
def summaryText (resp : Option String) : String :=
  match resp with
  | some t => if t = "" then summaryFallback else t
  | none => summaryFallback

/-- `generateSummary` (lines 31-61).  The remote call's outcome is supplied
as data (`Except.error` = the request threw, which the catch re-throws;
`Except.ok resp` = a response whose `text` field is `resp`).  The body never
touches the module-level `chatSession`, so the service state is returned
unchanged; the file parts actually transmitted are returned for inspection. -/
def generateSummaryRun (st : ServiceState) (files : List UploadedFile)
    (remote : Except Unit (Option String)) :
    ServiceState × List InlinePart × Except Unit String :=
  let parts := filePartsOf files
  match remote with
  | Except.ok resp => (st, parts, Except.ok (summaryText resp))
  | Except.error e => (st, parts, Except.error e)

/-! ### FileUpload.tsx -/

def pdfMime : String := "application/pdf"

/-- The per-file ceiling `20 * 1024 * 1024` of `processFiles` (line 27). -/
def sizeCap : Nat := 20 * 1024 * 1024

/-- The validation applied to one file inside the `for` loop of
`processFiles` (lines 22-31): the MIME check comes before the size check. -/
def fileViolation (f : RawFile) : Option String :=
  if f.type ≠ pdfMime then some "Only PDF files are allowed."
  else if f.size > sizeCap then
    some ("File \"" ++ f.name ++ "\" exceeds 20MB limit.")
  else none

/-- The `for (const file of files)` validation loop: the first violating file
in order aborts the batch with its message. -/
def firstViolation : List RawFile → Option String
  | [] => none
  | f :: rest =>
    match fileViolation f with
    | some m => some m
    | none => firstViolation rest

/-- Result of `processFiles`: early return on the empty list, a validation
error (`onFileSelect` not called, nothing encoded), or the encoded batch
handed to `onFileSelect`. -/
inductive UploadOutcome where
  | nothing
  | rejected (msg : String)
  | selected (files : List UploadedFile)
deriving DecidableEq

/-- `processFiles` (lines 15-60).  `readDataUrl` stands for the browser's
`FileReader.readAsDataURL`; it is only invoked after the whole batch passes
validation. -/
def processFiles (readDataUrl : RawFile → List Char) (files : List RawFile) :
    UploadOutcome :=
  if files = [] then UploadOutcome.nothing
  else
    match firstViolation files with
    | some m => UploadOutcome.rejected m
    | none =>
      UploadOutcome.selected
        (files.map fun f => ⟨f.name, f.type, readDataUrl f, f.size⟩)

/-! ### Chat screen component (`handleSendMessage`, `handleGenerateSummary`) -/

/-- The fixed error turn text of `handleSendMessage`'s catch block. -/
def errorTurnText : String :=
  "I'm sorry, I encountered an error while processing your request. Please try again."

/-- The fixed failure text of `handleGenerateSummary`'s catch block. -/
def summaryFailText : String :=
  "Failed to generate summary. Please check your connection and try again."

/-- The component state touched by the two handlers: the conversation turn
list, the transient streaming buffer, and the summary surface. -/
structure ChatState where
  messages : List Message
  streamingContent : String
  summaryContent : String
deriving DecidableEq

/-- Everything observable about one `handleSendMessage` run: the component
state and service state afterwards, the message sent to the remote API
(`none` when the empty-input guard blocked the dispatch), and the sequence of
streaming-buffer updates. -/
structure DispatchOutcome where
  chat : ChatState
  svc : ServiceState
  sent : Option SentMessage
  trace : List String
deriving DecidableEq

/-- `handleSendMessage` (chat component lines 128-177).  `input` is the
already-trimmed input value (the guard rejects it when empty); `now` supplies
`Date.now()`.  The presentation layer passes the file set iff the message
list is empty (`isFirstMessage`, line 146); on success the assembled text
becomes a model turn, on failure one error turn with the fixed text is
appended instead; the `finally` clause clears the streaming buffer. -/
def handleSendMessage (st : ChatState) (svc : ServiceState) (input : String)
    (files : List UploadedFile) (events : List StreamEvent) (now : Nat) :
    DispatchOutcome :=
  if input = "" then ⟨st, svc, none, []⟩
  else
    let userMsg : Message := ⟨toString now, Role.user, input, now, false⟩
    let fwd := if st.messages = [] then some files else none
    let out := sendMessageStreamRun svc input fwd events
    match out.2.2.2 with
    | Except.ok t =>
      ⟨⟨st.messages ++ [userMsg, ⟨toString (now + 1), Role.model, t, now, false⟩],
          "", st.summaryContent⟩, out.1, out.2.1, out.2.2.1⟩
    | Except.error _ =>
      ⟨⟨st.messages ++ [userMsg, ⟨toString (now + 1), Role.model, errorTurnText, now, true⟩],
          "", st.summaryContent⟩, out.1, out.2.1, out.2.2.1⟩

/-- `handleGenerateSummary` (chat component lines 179-191): the summary text
or the fixed failure text replaces the summary surface's content; nothing
else is touched. -/
def handleGenerateSummary (st : ChatState) (svc : ServiceState)
    (files : List UploadedFile) (remote : Except Unit (Option String)) :
    ChatState × ServiceState :=
  let (svc', _, r) := generateSummaryRun svc files remote
  match r with
  | Except.ok s => ({ st with summaryContent := s }, svc')
  | Except.error _ => ({ st with summaryContent := summaryFailText }, svc')

/-- Number of assistant turns in a conversation. -/
def modelTurns (ms : List Message) : Nat :=
  ms.countP fun m => decide (m.role = Role.model)

/-! ### Characterization helpers (used only in theorem statements) -/

/-- `growsTo a b`: `b` extends `a` on the right. -/
def growsTo (a b : String) : Prop := ∃ t, a ++ t = b

/-- The sequence of running totals produced by appending each fragment of
`l` in turn to `acc`. -/
def cumulAux (acc : String) : List String → List String
  | [] => []
  | f :: rest => (acc ++ f) :: cumulAux (acc ++ f) rest

/-- The assistant turn appended by `handleSendMessage` for a given dispatch
outcome: the assembled text on success, the fixed error turn on failure. -/
def responseTurn (now : Nat) (r : Except Unit String) : Message :=
  match r with
  | Except.ok t => ⟨toString (now + 1), Role.model, t, now, false⟩
  | Except.error _ => ⟨toString (now + 1), Role.model, errorTurnText, now, true⟩

/-! ### Helper lemmas -/

theorem ensureSession_some (st : ServiceState) :
    ∃ h, (ensureSession st).chatSession = some h := by
  cases hs : st.chatSession with
  | none => exact ⟨st.nextSessionId, by simp [ensureSession, initializeChat, hs]⟩
  | some k => exact ⟨k, by simp [ensureSession, hs]⟩

theorem ensureSession_of_some (st : ServiceState) (k : Nat)
    (h : st.chatSession = some k) : ensureSession st = st := by
  simp [ensureSession, h]

theorem sendRun_eq (svc : ServiceState) (text : String)
    (files : Option (List UploadedFile)) (events : List StreamEvent) :
    sendMessageStreamRun svc text files events =
      (ensureSession svc, some (requestFor files text),
        (streamLoop "" events).1, (streamLoop "" events).2) := by
  obtain ⟨h, hh⟩ := ensureSession_some svc
  simp [sendMessageStreamRun, hh]

theorem handleSend_eq (st : ChatState) (svc : ServiceState) (input : String)
    (files : List UploadedFile) (events : List StreamEvent) (now : Nat)
    (hi : input ≠ "") :
    handleSendMessage st svc input files events now =
      ⟨⟨st.messages ++ [⟨toString now, Role.user, input, now, false⟩,
          responseTurn now (streamLoop "" events).2], "", st.summaryContent⟩,
        ensureSession svc,
        some (requestFor (if st.messages = [] then some files else none) input),
        (streamLoop "" events).1⟩ := by
  cases hr : (streamLoop "" events).2 with
  | ok t => simp [handleSendMessage, hi, sendRun_eq, hr, responseTurn]
  | error e => simp [handleSendMessage, hi, sendRun_eq, hr, responseTurn]

theorem streamLoop_chunks (l : List String) (acc : String) :
    streamLoop acc (l.map StreamEvent.chunk) =
      (cumulAux acc (l.filter fun s => s ≠ ""), Except.ok (l.foldl (· ++ ·) acc)) := by
  induction l generalizing acc with
  | nil => simp [streamLoop, cumulAux]
  | cons f r ih =>
    by_cases hf : f = ""
    · subst hf
      simp [streamLoop, ih, String.append_empty, cumulAux]
    · simp [streamLoop, hf, ih, cumulAux]

theorem cumulAux_chain (l : List String) (acc : String) :
    List.Chain' growsTo (cumulAux acc l) := by
  induction l generalizing acc with
  | nil => simp [cumulAux]
  | cons f r ih =>
    rw [cumulAux, List.chain'_cons']
    refine ⟨?_, ih _⟩
    intro y hy
    cases r with
    | nil => simp [cumulAux] at hy
    | cons g r2 =>
      simp only [cumulAux, List.head?_cons, Option.mem_def, Option.some.injEq] at hy
      exact ⟨g, hy⟩

theorem cumulAux_concat (l : List String) (acc : String) (hl : l ≠ []) :
    ∃ init, cumulAux acc l = init ++ [l.foldl (· ++ ·) acc] := by
  induction l generalizing acc with
  | nil => exact absurd rfl hl
  | cons f r ih =>
    cases r with
    | nil => exact ⟨[], by simp [cumulAux]⟩
    | cons g r2 =>
      obtain ⟨init, hinit⟩ := ih (acc ++ f) (by simp)
      have hstep : cumulAux acc (f :: g :: r2) =
          (acc ++ f) :: cumulAux (acc ++ f) (g :: r2) := rfl
      refine ⟨(acc ++ f) :: init, ?_⟩
      rw [hstep, hinit]
      simp

theorem cumulAux_ne_nil (l : List String) (acc : String) (hl : l ≠ []) :
    cumulAux acc l ≠ [] := by
  cases l with
  | nil => exact absurd rfl hl
  | cons f r => simp [cumulAux]

theorem foldl_filter_ne (l : List String) (acc : String) :
    (l.filter fun s => s ≠ "").foldl (· ++ ·) acc = l.foldl (· ++ ·) acc := by
  induction l generalizing acc with
  | nil => rfl
  | cons f r ih =>
    by_cases hf : f = ""
    · subst hf
      rw [List.filter_cons_of_neg (by simp), List.foldl_cons, String.append_empty]
      exact ih acc
    · rw [List.filter_cons_of_pos (by simp [hf]), List.foldl_cons, List.foldl_cons]
      exact ih (acc ++ f)

theorem splitComma_commaFree (l : List Char) (h : ∀ c ∈ l, c ≠ ',') :
    splitComma l = [l] := by
  induction l with
  | nil => rfl
  | cons c cs ih =>
    have hc : c ≠ ',' := h c (by simp)
    have ih' := ih fun d hd => h d (List.mem_cons_of_mem _ hd)
    simp [splitComma, hc, ih']

theorem splitComma_append (a r : List Char) (h : ∀ c ∈ a, c ≠ ',') :
    splitComma (a ++ ',' :: r) = a :: splitComma r := by
  induction a with
  | nil => simp [splitComma]
  | cons c cs ih =>
    have hc : c ≠ ',' := h c (by simp)
    have ih' := ih fun d hd => h d (List.mem_cons_of_mem _ hd)
    simp [splitComma, hc, ih']

theorem stripDataUrl_commaFree (l : List Char) (h : ∀ c ∈ l, c ≠ ',') :
    stripDataUrl l = l := by
  simp [stripDataUrl, splitComma_commaFree l h]

theorem base64_ne_comma (c : Char) (h : base64Char c = true) : c ≠ ',' := by
  intro he
  subst he
  exact absurd h (by decide)

theorem leadsWith_self_append (p v : List Char) : leadsWith p (p ++ v) = true := by
  induction p with
  | nil => rfl
  | cons c cs ih => simp [leadsWith, ih]

theorem hasSeg_append (u p v : List Char) : hasSeg p (u ++ p ++ v) = true := by
  induction u with
  | nil =>
    cases p with
    | nil =>
      cases v with
      | nil => rfl
      | cons d s => simp [hasSeg, leadsWith]
    | cons c p2 => simp [hasSeg, leadsWith, leadsWith_self_append]
  | cons d u2 ih =>
    have ih2 : hasSeg p (u2 ++ (p ++ v)) = true := by
      rw [← List.append_assoc]
      exact ih
    simp [hasSeg, ih2]

theorem fileViolation_isSome_iff (f : RawFile) :
    (fileViolation f).isSome = true ↔ (f.type ≠ pdfMime ∨ f.size > sizeCap) := by
  by_cases ht : f.type = pdfMime <;> by_cases hs : f.size > sizeCap <;>
    simp [fileViolation, ht, hs]

theorem firstViolation_of_mem (files : List RawFile) (f : RawFile)
    (hf : f ∈ files) (hv : (fileViolation f).isSome = true) :
    (firstViolation files).isSome = true := by
  induction files with
  | nil => simp at hf
  | cons g r ih =>
    cases hg : fileViolation g with
    | some m => simp [firstViolation, hg]
    | none =>
      rcases List.mem_cons.mp hf with h1 | h2
      · subst h1; rw [hg] at hv; simp at hv
      · simp [firstViolation, hg, ih h2]

theorem firstViolation_eq_find (files : List RawFile) :
    firstViolation files =
      (files.find? fun f => (fileViolation f).isSome).bind fileViolation := by
  induction files with
  | nil => rfl
  | cons g r ih =>
    cases hg : fileViolation g with
    | some m =>
      rw [List.find?_cons_of_pos _ (by simp [hg])]
      simp [firstViolation, hg]
    | none =>
      rw [List.find?_cons_of_neg _ (by simp [hg])]
      simp [firstViolation, hg, ih]

theorem processFiles_rejected (readDataUrl : RawFile → List Char)
    (files : List RawFile) (m : String)
    (hm : firstViolation files = some m) (hne : files ≠ []) :
    processFiles readDataUrl files = UploadOutcome.rejected m := by
  simp [processFiles, hne, hm]

theorem sent_no_files (st : ChatState) (svc : ServiceState) (input : String)
    (files : List UploadedFile) (events : List StreamEvent) (now : Nat)
    (sent : SentMessage) (hm : st.messages ≠ []) (hi : input ≠ "")
    (hsent : (handleSendMessage st svc input files events now).sent = some sent) :
    sent.fileParts = [] := by
  rw [handleSend_eq st svc input files events now hi] at hsent
  simp only [if_neg hm, Option.some.injEq] at hsent
  subst hsent
  rfl

/-! ### Claims -/

/-- C1, counterexample: with the fragments `["Hello", "Hello world",
"Hello world!"]` the dispatcher's callback does not observe that sequence
(the code concatenates each fragment onto the running total instead of
treating fragments as cumulative), and the returned value is the full
concatenation, not the last fragment. -/
theorem c1_counterexample :
    (streamLoop "" [StreamEvent.chunk "Hello", StreamEvent.chunk "Hello world",
        StreamEvent.chunk "Hello world!"]).1 ≠
      ["Hello", "Hello world", "Hello world!"] ∧
    (streamLoop "" [StreamEvent.chunk "Hello", StreamEvent.chunk "Hello world",
        StreamEvent.chunk "Hello world!"]).2 =
      Except.ok "HelloHello worldHello world!" ∧
    "HelloHello worldHello world!" ≠ "Hello world!" := by
  refine ⟨by decide, rfl, by decide⟩

/-- C1 (amended): the dispatcher appends each fragment to a running total
and invokes the progress callback with the running total after every
non-empty fragment (empty fragments produce no callback); the sequence of
callback values is monotonically growing, each being a prefix-extension of
the previous, and the value finally returned is the full concatenation,
which equals the last value passed to the callback whenever the callback
was invoked at all. -/
theorem c1_stream_accumulation (frags : List String) (tr : List String)
    (res : Except Unit String)
    (hrun : streamLoop "" (frags.map StreamEvent.chunk) = (tr, res)) :
    res = Except.ok (frags.foldl (· ++ ·) "") ∧
    tr = cumulAux "" (frags.filter fun s => s ≠ "") ∧
    List.Chain' growsTo tr ∧
    (tr ≠ [] → ∃ init last, tr = init ++ [last] ∧ res = Except.ok last) := by
  rw [streamLoop_chunks] at hrun
  obtain ⟨htr, hres⟩ := Prod.mk.injEq .. ▸ hrun
  have htr' := htr.symm
  have hres' := hres.symm
  subst htr' hres'
  refine ⟨rfl, rfl, cumulAux_chain _ _, ?_⟩
  intro hne
  have hfne : (frags.filter fun s => s ≠ "") ≠ [] := by
    intro h0
    exact hne (by rw [h0]; rfl)
  obtain ⟨init, hinit⟩ := cumulAux_concat _ "" hfne
  refine ⟨init, (frags.filter fun s => s ≠ "").foldl (· ++ ·) "", hinit, ?_⟩
  rw [foldl_filter_ne]

/-- C1 witness: with the fragments `["Hello", " world", "!"]` the callback
observes exactly `["Hello", "Hello world", "Hello world!"]` and the
returned value equals the last callback value. -/
theorem c1_witness :
    (streamLoop "" (["Hello", " world", "!"].map StreamEvent.chunk)).1 =
      ["Hello", "Hello world", "Hello world!"] ∧
    (streamLoop "" (["Hello", " world", "!"].map StreamEvent.chunk)).2 =
      Except.ok "Hello world!" := by
  obtain ⟨h1, h2, _h3, _h4⟩ :=
    c1_stream_accumulation ["Hello", " world", "!"]
      (streamLoop "" (["Hello", " world", "!"].map StreamEvent.chunk)).1
      (streamLoop "" (["Hello", " world", "!"].map StreamEvent.chunk)).2 rfl
  exact ⟨by rw [h2]; decide, by rw [h1]; exact congrArg Except.ok (by decide)⟩

/-- C2: the session-ensure path is idempotent.  When a session handle
already exists it is a no-op that keeps the handle; ensuring twice from any
state equals ensuring once, creates at most one session, and a
`sendMessageStream` call from a state with a live session leaves the
service state unchanged. -/
theorem c2_ensure_idempotent (st : ServiceState) (h : Nat)
    (hs : st.chatSession = some h) :
    ensureSession st = st ∧
    (∀ st2 : ServiceState, ensureSession (ensureSession st2) = ensureSession st2) ∧
    (∀ st2 : ServiceState,
      (ensureSession (ensureSession st2)).nextSessionId ≤ st2.nextSessionId + 1) ∧
    (∀ (text : String) (files : Option (List UploadedFile))
        (events : List StreamEvent),
      (sendMessageStreamRun st text files events).1 = st) := by
  have honce : ∀ st2 : ServiceState,
      ensureSession (ensureSession st2) = ensureSession st2 := by
    intro st2
    obtain ⟨k, hk⟩ := ensureSession_some st2
    exact ensureSession_of_some _ k hk
  refine ⟨ensureSession_of_some st h hs, honce, ?_, ?_⟩
  · intro st2
    rw [honce st2]
    cases hs2 : st2.chatSession with
    | none => simp [ensureSession, initializeChat, hs2]
    | some k => simp [ensureSession, hs2]
  · intro text files events
    rw [sendRun_eq]
    exact ensureSession_of_some st h hs

/-- C2 witness: with a live session handle `7`, ensuring is a no-op, double
ensuring from a fresh state creates at most one session, and a send leaves
the state unchanged. -/
theorem c2_witness :
    ensureSession ⟨some 7, 8⟩ = (⟨some 7, 8⟩ : ServiceState) ∧
    ensureSession (ensureSession ⟨none, 0⟩) = ensureSession ⟨none, 0⟩ ∧
    (ensureSession (ensureSession ⟨none, 0⟩)).nextSessionId ≤ 1 ∧
    (sendMessageStreamRun ⟨some 7, 8⟩ "hi" none []).1 = (⟨some 7, 8⟩ : ServiceState) := by
  obtain ⟨h1, h2, h3, h4⟩ := c2_ensure_idempotent ⟨some 7, 8⟩ 7 rfl
  exact ⟨h1, h2 ⟨none, 0⟩, h3 ⟨none, 0⟩, h4 "hi" none []⟩

/-- C3: file payloads are attached exactly on the first message.  The
presentation layer forwards the file set iff the conversation's message
list is empty, so the dispatched request carries file parts iff the message
list was empty; after any dispatch the message list is non-empty, hence
every subsequent dispatch carries no file parts. -/
theorem c3_files_first_message_only (st : ChatState) (svc : ServiceState)
    (input : String) (files : List UploadedFile) (events : List StreamEvent)
    (now : Nat) (hi : input ≠ "") (hf : files ≠ []) :
    (∃ sent, (handleSendMessage st svc input files events now).sent = some sent ∧
      (sent.fileParts ≠ [] ↔ st.messages = [])) ∧
    (handleSendMessage st svc input files events now).chat.messages ≠ [] ∧
    (∀ (svc2 : ServiceState) (input2 : String) (files2 : List UploadedFile)
        (events2 : List StreamEvent) (now2 : Nat) (sent2 : SentMessage),
      input2 ≠ "" →
      (handleSendMessage (handleSendMessage st svc input files events now).chat
          svc2 input2 files2 events2 now2).sent = some sent2 →
      sent2.fileParts = []) := by
  have he := handleSend_eq st svc input files events now hi
  have hmsgs : (handleSendMessage st svc input files events now).chat.messages ≠ [] := by
    rw [he]
    simp
  refine ⟨⟨requestFor (if st.messages = [] then some files else none) input,
      by rw [he], ?_⟩, hmsgs, ?_⟩
  · by_cases hm : st.messages = []
    · have hlen : files.length > 0 := List.length_pos.mpr hf
      simp [hm, requestFor, hlen, filePartsOf, hf]
    · simp [hm, requestFor]
  · intro svc2 input2 files2 events2 now2 sent2 hi2 hsent
    exact sent_no_files _ svc2 input2 files2 events2 now2 sent2 hmsgs hi2 hsent

/-- C3 witness: on an empty conversation the request carries the file
parts; the resulting conversation is non-empty, and a second dispatch from
it carries none. -/
theorem c3_witness :
    (∃ sent, (handleSendMessage ⟨[], "", ""⟩ ⟨none, 0⟩ "q"
        [⟨"a.pdf", "application/pdf", "QQ==".data, 4⟩] [] 0).sent = some sent ∧
      (sent.fileParts ≠ [] ↔ ([] : List Message) = [])) ∧
    (handleSendMessage ⟨[], "", ""⟩ ⟨none, 0⟩ "q"
        [⟨"a.pdf", "application/pdf", "QQ==".data, 4⟩] [] 0).chat.messages ≠ [] := by
  obtain ⟨h1, h2, _h3⟩ := c3_files_first_message_only ⟨[], "", ""⟩ ⟨none, 0⟩ "q"
    [⟨"a.pdf", "application/pdf", "QQ==".data, 4⟩] [] 0 (by decide) (by simp)
  exact ⟨h1, h2⟩

/-- C4: batch validation is atomic.  If any file of the batch has a
non-PDF MIME type or a size above 20 MiB, `processFiles` rejects the whole
batch and never reaches the selected (encoded, callback-invoked) outcome;
the message is determined by the first violating file in batch order. -/
theorem c4_atomic_batch_validation (readDataUrl : RawFile → List Char)
    (files : List RawFile) :
    (∀ f ∈ files, (f.type ≠ pdfMime ∨ f.size > sizeCap) →
      (∃ m, processFiles readDataUrl files = UploadOutcome.rejected m) ∧
      ∀ encoded, processFiles readDataUrl files ≠ UploadOutcome.selected encoded) ∧
    (∀ g, files.find? (fun f => (fileViolation f).isSome) = some g →
      processFiles readDataUrl files =
        UploadOutcome.rejected ((fileViolation g).getD "")) := by
  have hrej : ∀ f ∈ files, (f.type ≠ pdfMime ∨ f.size > sizeCap) →
      ∃ m, processFiles readDataUrl files = UploadOutcome.rejected m := by
    intro f hf hv
    have hvs : (fileViolation f).isSome = true := (fileViolation_isSome_iff f).mpr hv
    have hfs := firstViolation_of_mem files f hf hvs
    obtain ⟨m, hm⟩ := Option.isSome_iff_exists.mp hfs
    have hne : files ≠ [] := by
      intro h0
      subst h0
      simp at hf
    exact ⟨m, processFiles_rejected readDataUrl files m hm hne⟩
  refine ⟨fun f hf hv => ⟨hrej f hf hv, ?_⟩, ?_⟩
  · intro encoded hcontr
    obtain ⟨m, hm⟩ := hrej f hf hv
    rw [hcontr] at hm
    exact UploadOutcome.noConfusion hm
  · intro g hg
    have hvs : (fileViolation g).isSome = true := by
      have h0 := List.find?_some hg
      exact h0
    obtain ⟨m, hm⟩ := Option.isSome_iff_exists.mp hvs
    have hne : files ≠ [] := by
      intro h0
      subst h0
      simp [List.find?] at hg
    have hfv : firstViolation files = some m := by
      rw [firstViolation_eq_find, hg]
      exact hm
    rw [processFiles_rejected readDataUrl files m hfv hne, hm]
    rfl

/-- C4 witness: a batch whose second file is oversized is rejected with
that file's message, and is never selected. -/
theorem c4_witness :
    processFiles (fun _ => []) [⟨"ok.pdf", "application/pdf", 5⟩,
        ⟨"big.pdf", "application/pdf", 20971521⟩] =
      UploadOutcome.rejected "File \"big.pdf\" exceeds 20MB limit." ∧
    ∀ encoded, processFiles (fun _ => []) [⟨"ok.pdf", "application/pdf", 5⟩,
        ⟨"big.pdf", "application/pdf", 20971521⟩] ≠
      UploadOutcome.selected encoded := by
  obtain ⟨h1, h2⟩ := c4_atomic_batch_validation (fun _ => [])
    [⟨"ok.pdf", "application/pdf", 5⟩, ⟨"big.pdf", "application/pdf", 20971521⟩]
  refine ⟨?_, (h1 ⟨"big.pdf", "application/pdf", 20971521⟩ (by decide)
    (Or.inr (by decide))).2⟩
  exact (h2 ⟨"big.pdf", "application/pdf", 20971521⟩ (by decide)).trans (by decide)

/-- C5, counterexample: a batch rejected for a wrong MIME type produces the
fixed message `Only PDF files are allowed.`, which does not contain the
offending file's name — the report does not identify the file. -/
theorem c5_counterexample :
    processFiles (fun _ => []) [⟨"secret", "text/plain", 5⟩] =
      UploadOutcome.rejected "Only PDF files are allowed." ∧
    hasSeg "secret".data "Only PDF files are allowed.".data = false := by
  exact ⟨by decide, by decide⟩

/-- C5 (amended): a size violation is reported with a message naming the
offending file (the file's name occurs in the message) and stating the
constraint; a MIME-type violation is reported with the fixed message
`Only PDF files are allowed.`, which states the constraint but does not
name the file. -/
theorem c5_violation_reports (readDataUrl : RawFile → List Char)
    (files : List RawFile) (g : RawFile)
    (hg : files.find? (fun f => (fileViolation f).isSome) = some g) :
    (g.type ≠ pdfMime →
      processFiles readDataUrl files =
        UploadOutcome.rejected "Only PDF files are allowed.") ∧
    (g.type = pdfMime →
      processFiles readDataUrl files =
        UploadOutcome.rejected ("File \"" ++ g.name ++ "\" exceeds 20MB limit.") ∧
      hasSeg g.name.data
        ("File \"" ++ g.name ++ "\" exceeds 20MB limit.").data = true) := by
  have hvs : (fileViolation g).isSome = true := by
    have h0 := List.find?_some hg
    exact h0
  have hne : files ≠ [] := by
    intro h0
    subst h0
    simp [List.find?] at hg
  have hfv : ∀ m, fileViolation g = some m → firstViolation files = some m := by
    intro m hm
    rw [firstViolation_eq_find, hg]
    exact hm
  constructor
  · intro ht
    have hm : fileViolation g = some "Only PDF files are allowed." := by
      simp [fileViolation, ht]
    exact processFiles_rejected readDataUrl files _ (hfv _ hm) hne
  · intro ht
    have hsize : g.size > sizeCap := by
      rcases (fileViolation_isSome_iff g).mp hvs with h1 | h2
      · exact absurd ht h1
      · exact h2
    have hm : fileViolation g =
        some ("File \"" ++ g.name ++ "\" exceeds 20MB limit.") := by
      simp [fileViolation, ht, hsize]
    refine ⟨processFiles_rejected readDataUrl files _ (hfv _ hm) hne, ?_⟩
    have hdata : ("File \"" ++ g.name ++ "\" exceeds 20MB limit.").data =
        "File \"".data ++ g.name.data ++ "\" exceeds 20MB limit.".data := by
      rw [String.data_append, String.data_append]
    rw [hdata]
    exact hasSeg_append _ _ _

/-- C5 witness: an oversized `big.pdf` is rejected with a message that
contains its name. -/
theorem c5_witness :
    processFiles (fun _ => []) [⟨"big.pdf", "application/pdf", 20971521⟩] =
      UploadOutcome.rejected "File \"big.pdf\" exceeds 20MB limit." ∧
    hasSeg "big.pdf".data "File \"big.pdf\" exceeds 20MB limit.".data = true := by
  have h := (c5_violation_reports (fun _ => [])
    [⟨"big.pdf", "application/pdf", 20971521⟩]
    ⟨"big.pdf", "application/pdf", 20971521⟩ (by decide)).2 rfl
  exact ⟨h.1.trans (by decide), by
    have h2 := h.2
    rw [show ("File \"" ++ ("big.pdf" : String) ++ "\" exceeds 20MB limit.") =
      "File \"big.pdf\" exceeds 20MB limit." from by decide] at h2
    exact h2⟩

/-- C6, counterexample: for the empty base64 payload (a valid base64 string,
encoding zero bytes) the data-URL-prefixed form is transmitted whole —
including the prefix — while the unprefixed form transmits the empty
payload, so the two transmissions are not byte-identical. -/
theorem c6_counterexample :
    stripDataUrl "data:application/pdf;base64,".data =
      "data:application/pdf;base64,".data ∧
    stripDataUrl ([] : List Char) = [] ∧
    "data:application/pdf;base64,".data ≠ ([] : List Char) ∧
    (∀ c ∈ ([] : List Char), base64Char c = true) := by
  exact ⟨by decide, rfl, by decide, by decide⟩

/-- C6 (amended): for every non-empty base64 payload and comma-free MIME
type, stripping the data-URL-prefixed form at the first comma transmits
exactly the payload — byte-identical to transmitting the unprefixed payload
— and the encoded file parts built from the two forms coincide. -/
theorem c6_strip_payload_preserving (mime payload : List Char)
    (name mt : String) (sz : Nat) (hp : payload ≠ [])
    (hb : ∀ c ∈ payload, base64Char c = true) (hm : ∀ c ∈ mime, c ≠ ',') :
    stripDataUrl ("data:".data ++ mime ++ ";base64,".data ++ payload) = payload ∧
    stripDataUrl payload = payload ∧
    filePartsOf [⟨name, mt, "data:".data ++ mime ++ ";base64,".data ++ payload, sz⟩] =
      filePartsOf [⟨name, mt, payload, sz⟩] := by
  have hpay : ∀ c ∈ payload, c ≠ ',' := fun c hc => base64_ne_comma c (hb c hc)
  have hb64 : (";base64,").data = ";base64".data ++ [','] := by decide
  have hsplit : "data:".data ++ mime ++ ";base64,".data ++ payload =
      ("data:".data ++ mime ++ ";base64".data) ++ (',' :: payload) := by
    rw [hb64]
    simp [List.append_assoc]
  have hpre : ∀ c ∈ "data:".data ++ mime ++ ";base64".data, c ≠ ',' := by
    intro c hc
    rcases List.mem_append.mp hc with h1 | h2
    · rcases List.mem_append.mp h1 with h3 | h4
      · exact (by decide : ∀ c ∈ "data:".data, c ≠ ',') c h3
      · exact hm c h4
    · exact (by decide : ∀ c ∈ (";base64").data, c ≠ ',') c h2
  have h1 : stripDataUrl ("data:".data ++ mime ++ ";base64,".data ++ payload) =
      payload := by
    rw [hsplit, stripDataUrl, splitComma_append _ _ hpre,
      splitComma_commaFree _ hpay]
    simp [hp]
  have h2 : stripDataUrl payload = payload := stripDataUrl_commaFree _ hpay
  refine ⟨h1, h2, ?_⟩
  show [InlinePart.mk
      (stripDataUrl ("data:".data ++ mime ++ ";base64,".data ++ payload)) mt] =
    [InlinePart.mk (stripDataUrl payload) mt]
  rw [h1, h2]

/-- C6 witness: prefixing the payload `QUJD` with
`data:application/pdf;base64,` and stripping transmits exactly `QUJD`, the
same bytes as the unprefixed transmission. -/
theorem c6_witness :
    stripDataUrl ("data:".data ++ "application/pdf".data ++ ";base64,".data ++
      "QUJD".data) = "QUJD".data ∧
    stripDataUrl "QUJD".data = "QUJD".data := by
  obtain ⟨h1, h2, _h3⟩ := c6_strip_payload_preserving "application/pdf".data
    "QUJD".data "doc.pdf" "application/pdf" 3 (by decide) (by decide) (by decide)
  exact ⟨h1, h2⟩

/-- C7: on dispatch failure the partial text is discarded.  If the stream
fails (after any number of fragments), the conversation gains the user turn
plus exactly one assistant turn whose text is the fixed generic failure
message with the error flag set — never the partial text — and the
streaming buffer ends cleared. -/
theorem c7_dispatch_failure_generic_turn (st : ChatState) (svc : ServiceState)
    (input : String) (files : List UploadedFile) (events : List StreamEvent)
    (now : Nat) (hi : input ≠ "")
    (herr : (streamLoop "" events).2 = Except.error ()) :
    (handleSendMessage st svc input files events now).chat.messages =
      st.messages ++ [⟨toString now, Role.user, input, now, false⟩,
        ⟨toString (now + 1), Role.model, errorTurnText, now, true⟩] ∧
    (handleSendMessage st svc input files events now).chat.streamingContent = "" ∧
    modelTurns (handleSendMessage st svc input files events now).chat.messages =
      modelTurns st.messages + 1 := by
  have he := handleSend_eq st svc input files events now hi
  have hturn : responseTurn now (streamLoop "" events).2 =
      ⟨toString (now + 1), Role.model, errorTurnText, now, true⟩ := by
    rw [herr]
    rfl
  refine ⟨by rw [he]; simp [hturn], by rw [he], ?_⟩
  rw [he]
  simp only [hturn]
  simp [modelTurns, List.countP_append, List.countP_cons]

/-- C7 witness: with `"Hel"` received and then a stream error, the
conversation ends with the fixed generic failure turn (error flag set), not
`"Hel"`, and the streaming buffer is cleared. -/
theorem c7_witness :
    (handleSendMessage ⟨[], "", ""⟩ ⟨none, 0⟩ "Hi" []
        [StreamEvent.chunk "Hel", StreamEvent.err] 0).chat.messages =
      [⟨toString 0, Role.user, "Hi", 0, false⟩,
        ⟨toString 1, Role.model, errorTurnText, 0, true⟩] ∧
    (handleSendMessage ⟨[], "", ""⟩ ⟨none, 0⟩ "Hi" []
        [StreamEvent.chunk "Hel", StreamEvent.err] 0).chat.streamingContent = "" ∧
    errorTurnText ≠ "Hel" := by
  obtain ⟨h1, h2, _h3⟩ := c7_dispatch_failure_generic_turn ⟨[], "", ""⟩ ⟨none, 0⟩
    "Hi" [] [StreamEvent.chunk "Hel", StreamEvent.err] 0 (by decide) rfl
  exact ⟨by rw [h1]; rfl, h2, by decide⟩

/-- C8: the summary operation is independent of the conversational session.
`generateSummary` returns the service state unchanged, its result does not
depend on the session handle, and a summary failure leaves the conversation
untouched, replacing only the summary surface's content with the fixed
failure message. -/
theorem c8_summary_frame (st : ChatState) (svc svc2 : ServiceState)
    (files : List UploadedFile) (remote : Except Unit (Option String)) :
    (generateSummaryRun svc files remote).1 = svc ∧
    (generateSummaryRun svc files remote).2.2 =
      (generateSummaryRun svc2 files remote).2.2 ∧
    (remote = Except.error () →
      (handleGenerateSummary st svc files remote).1.messages = st.messages ∧
      (handleGenerateSummary st svc files remote).1.summaryContent =
        summaryFailText ∧
      (handleGenerateSummary st svc files remote).2.chatSession =
        svc.chatSession) := by
  cases remote with
  | ok resp => exact ⟨rfl, rfl, fun h => Except.noConfusion h⟩
  | error e => exact ⟨rfl, rfl, fun _ => ⟨rfl, rfl, rfl⟩⟩

/-- C8 witness: a failing summary request leaves the message list and the
session handle unchanged and puts the fixed failure text on the summary
surface. -/
theorem c8_witness :
    (generateSummaryRun ⟨some 3, 4⟩ [] (Except.error ())).1 =
      (⟨some 3, 4⟩ : ServiceState) ∧
    (handleGenerateSummary ⟨[⟨"1", Role.user, "q", 0, false⟩], "", "old"⟩
        ⟨some 3, 4⟩ [] (Except.error ())).1.messages =
      [⟨"1", Role.user, "q", 0, false⟩] ∧
    (handleGenerateSummary ⟨[⟨"1", Role.user, "q", 0, false⟩], "", "old"⟩
        ⟨some 3, 4⟩ [] (Except.error ())).1.summaryContent = summaryFailText ∧
    (handleGenerateSummary ⟨[⟨"1", Role.user, "q", 0, false⟩], "", "old"⟩
        ⟨some 3, 4⟩ [] (Except.error ())).2.chatSession = some 3 := by
  obtain ⟨h1, _h2, h3⟩ := c8_summary_frame
    ⟨[⟨"1", Role.user, "q", 0, false⟩], "", "old"⟩ ⟨some 3, 4⟩ ⟨none, 0⟩ []
    (Except.error ())
  obtain ⟨h4, h5, h6⟩ := h3 rfl
  exact ⟨h1, h4, h5, h6⟩

/-- C9: `generateSummary` never resolves to the empty string.  On every
successful remote response the result is `Except.ok (summaryText resp)`,
which is never empty, and when the response text is absent or empty it is
the fixed fallback string. -/
theorem c9_summary_nonempty (svc : ServiceState) (files : List UploadedFile)
    (resp : Option String) :
    (generateSummaryRun svc files (Except.ok resp)).2.2 =
      Except.ok (summaryText resp) ∧
    summaryText resp ≠ "" ∧
    ((resp = none ∨ resp = some "") → summaryText resp = summaryFallback) := by
  refine ⟨rfl, ?_, ?_⟩
  · cases resp with
    | none => decide
    | some t =>
      by_cases ht : t = ""
      · subst ht
        decide
      · simp [summaryText, ht]
  · intro h
    rcases h with h | h <;> subst h <;> rfl

/-- C9 witness: a successful response whose text field is the empty string
yields the fixed non-empty fallback. -/
theorem c9_witness :
    (generateSummaryRun ⟨none, 0⟩ [] (Except.ok (some ""))).2.2 =
      Except.ok (summaryText (some "")) ∧
    summaryText (some "") ≠ "" ∧
    summaryText (some "") = summaryFallback := by
  obtain ⟨h1, h2, h3⟩ := c9_summary_nonempty ⟨none, 0⟩ [] (some "")
  exact ⟨h1, h2, h3 (Or.inr rfl)⟩

/-- C10: edge behaviour of `data.split(',')[1] || data`.  A comma-free
string is transmitted unchanged; a string whose segment between the first
and second comma is empty is transmitted whole, prefix included; and a
string with two or more commas and a non-empty such segment transmits
exactly that segment — which differs from the full substring after the
first comma. -/
theorem c10_strip_edge_cases (s a b c : List Char) :
    ((∀ ch ∈ s, ch ≠ ',') → stripDataUrl s = s) ∧
    ((∀ ch ∈ a, ch ≠ ',') →
      stripDataUrl (a ++ (',' :: (',' :: c))) = a ++ (',' :: (',' :: c))) ∧
    ((∀ ch ∈ a, ch ≠ ',') → (∀ ch ∈ b, ch ≠ ',') → b ≠ [] →
      stripDataUrl (a ++ (',' :: (b ++ (',' :: c)))) = b ∧
      b ≠ b ++ (',' :: c)) := by
  refine ⟨fun h => stripDataUrl_commaFree s h, fun ha => ?_, fun ha hb hbne => ?_⟩
  · rw [stripDataUrl, splitComma_append a (',' :: c) ha]
    rw [show splitComma (',' :: c) = [] :: splitComma c from by simp [splitComma]]
    simp
  · constructor
    · rw [stripDataUrl, splitComma_append a (b ++ (',' :: c)) ha,
        splitComma_append b c hb]
      simp [hbne]
    · intro hcontr
      have hlen := congrArg List.length hcontr
      simp [List.length_append] at hlen

/-- C10 witness: `ab` (no comma) passes unchanged, `x,,z` (empty middle
segment) passes whole, and `x,y,z` transmits exactly `y`. -/
theorem c10_witness :
    stripDataUrl "ab".data = "ab".data ∧
    stripDataUrl ("x".data ++ (',' :: (',' :: "z".data))) =
      "x".data ++ (',' :: (',' :: "z".data)) ∧
    stripDataUrl ("x".data ++ (',' :: ("y".data ++ (',' :: "z".data)))) =
      "y".data := by
  have h := c10_strip_edge_cases "ab".data "x".data "y".data "z".data
  exact ⟨h.1 (by decide), h.2.1 (by decide),
    (h.2.2 (by decide) (by decide) (by decide)).1⟩

end DocuChat
